import Mathlib

/-!
Verification development for the FPL league-analysis data pipeline
(`utils/calculations.py`, `utils/fpl_api.py`, `utils/top_n_analysis.py`).

The Python code is shallowly embedded: every HTTP fetch is modelled by an
`HttpResult` value (a network error, or a response with a status code and an
already-parsed JSON body), and each Python function becomes a Lean function
from its inputs and fetched data to its return value.  Per-player gameweek
points (the cached `get_player_points`) are abstracted as an oracle
`pts : Nat → Int` wherever a function merely calls it.
-/

namespace FPL

/-- HTTP request method. The code only ever uses `session.get`. -/
inductive Method where
  | get
  | post
  | put
  | delete
deriving DecidableEq, Repr

/-- Outcome of one HTTP request: a network-level error (a raised
`requests.exceptions.RequestException`) or a response carrying a status code
and a parsed body. -/
inductive HttpResult (α : Type) where
  | netErr
  | resp (status : Nat) (body : α)
deriving DecidableEq, Repr

/-- A fetch failed: network error or non-200 status. -/
def HttpResult.isFailure : HttpResult α → Bool
  | .netErr => true
  | .resp status _ => status != 200

/-- One entry of `picks_data["picks"]` as used by the code:
`element`, `position`, `is_captain`, `is_vice_captain`. -/
structure Pick where
  element : Nat
  position : Nat
  is_captain : Bool
  is_vice_captain : Bool
deriving DecidableEq, Repr

/-- The parsed body of the `/entry/{id}/event/{gw}/picks/` endpoint, with the
fields `get_manager_gw_points` reads (`entry_history.points`,
`entry_history.event_transfers_cost`, `active_chip`, `picks`); the `.get`
defaults of the Python dict accesses are already applied. -/
structure PicksResponse where
  entry_points : Int
  entry_transfers_cost : Int
  active_chip : Option String
  picks : List Pick
deriving DecidableEq, Repr

/-- The chip-effect loop of `get_manager_gw_points` (calculations.py
lines 146-174): `bboost` sums the oracle points of every pick with
`position > 11`; `3xc` adds the points of the first captain pick and breaks;
`manager` adds the points of the first pick with `position == 16` and breaks;
any other chip (or none) leaves the effect at 0. -/
def chipPointEffect (pts : Nat → Int) (active_chip : Option String)
    (picks : List Pick) : Int :=
  match active_chip with
  | some "bboost" =>
      picks.foldl (fun acc p => if p.position > 11 then acc + pts p.element else acc) 0
  | some "3xc" =>
      match picks.find? (fun p => p.is_captain) with
      | some p => pts p.element
      | none => 0
  | some "manager" =>
      match picks.find? (fun p => p.position == 16) with
      | some p => pts p.element
      | none => 0
  | _ => 0

/-- The record returned by `get_manager_gw_points` on success. -/
structure GwPointsResult where
  net_points : Int
  transfer_adjusted_points : Int
  raw_points : Int
  transfer_cost : Int
  chip_effect : Int
deriving DecidableEq, Repr

/-- `get_manager_gw_points` (calculations.py lines 122-188): `None` on a
network error or non-200 status; otherwise the arithmetic on
`entry_history.points`, `entry_history.event_transfers_cost` and the chip
effect. -/
def get_manager_gw_points (pts : Nat → Int)
    (fetched : HttpResult PicksResponse) : Option GwPointsResult :=
  match fetched with
  | .netErr => none
  | .resp status data =>
    if status ≠ 200 then none
    else
      let points := data.entry_points
      let transfers_cost := data.entry_transfers_cost
      let chip_point_effect := chipPointEffect pts data.active_chip data.picks
      some { net_points := points - transfers_cost - chip_point_effect
             transfer_adjusted_points := points - transfers_cost
             raw_points := points
             transfer_cost := transfers_cost
             chip_effect := chip_point_effect }

/-- One record of a player's `history` array in the
`/element-summary/{id}/` body: `round` and `total_points`. -/
structure PlayerHistoryRecord where
  round : Nat
  total_points : Int
deriving DecidableEq, Repr

/-- `get_player_points` (calculations.py lines 56-81): 0 on a request error
or non-200 status, otherwise the sum of `total_points` over history records
with `round == gw` (double gameweeks sum). -/
def get_player_points (gw : Nat)
    (fetched : HttpResult (List PlayerHistoryRecord)) : Int :=
  match fetched with
  | .netErr => 0
  | .resp status player_data =>
    if status ≠ 200 then 0
    else
      player_data.foldl
        (fun acc record => if record.round == gw then acc + record.total_points else acc) 0

/-- `get_overall_rank` (fpl_api.py lines 39-62): on status 200 the optional
`summary_overall_rank` field of the body, `None` on 404, any other status, or
a request error. -/
def get_overall_rank (fetched : HttpResult (Option Int)) : Option Int :=
  match fetched with
  | .netErr => none
  | .resp status data =>
    if status = 200 then data else none

/-- `get_manager_history` (calculations.py lines 14-24): the parsed body on
status 200, `None` on any exception or non-200 status. -/
def get_manager_history (α : Type) (fetched : HttpResult α) : Option α :=
  match fetched with
  | .netErr => none
  | .resp status data =>
    if status = 200 then some data else none

/-- The pair of summary fields `get_manager_basic_data` extracts. -/
structure BasicData where
  summary_overall_points : Int
  summary_event_points : Int
deriving DecidableEq, Repr

/-- `get_manager_basic_data` (fpl_api.py lines 65-81): the two summary
fields on status 200, and the all-zero record on any other status or any
exception. -/
def get_manager_basic_data (fetched : HttpResult BasicData) : BasicData :=
  match fetched with
  | .netErr => { summary_overall_points := 0, summary_event_points := 0 }
  | .resp status data =>
    if status = 200 then data
    else { summary_overall_points := 0, summary_event_points := 0 }

/-- One record of the `/entry/{id}/transfers/` body as used by the code:
`event`, `element_in`, `element_out`.  A missing or null id is encoded as 0,
which is exactly what the Python truthiness test `if player_in_id:` treats
the same way. -/
structure Transfer where
  event : Nat
  element_in : Nat
  element_out : Nat
deriving DecidableEq, Repr

/-- `get_transfer_points_difference` (calculations.py lines 85-118).
`transfers_data` is the result of the cached `get_manager_transfers`, which
returns `[]` on any fetch failure, so a failed fetch is the empty list here.
`pts p` is the oracle for `get_player_points(p, gw, session)`. -/
def get_transfer_points_difference (pts : Nat → Int)
    (transfers_data : List Transfer) (gw : Nat) : Int :=
  if transfers_data.isEmpty then 0
  else
    let gw_transfers := transfers_data.filter (fun t => t.event == gw)
    if gw_transfers.isEmpty then 0
    else
      let points_in := gw_transfers.foldl
        (fun acc t => if t.element_in ≠ 0 then acc + pts t.element_in else acc) 0
      let points_out := gw_transfers.foldl
        (fun acc t => if t.element_out ≠ 0 then acc + pts t.element_out else acc) 0
      points_in - points_out

/-- An HTTP request: a method and a URL. -/
structure HttpRequest where
  method : Method
  url : String
deriving DecidableEq, Repr

/-- The complete set of endpoints the program requests.  Every `session.get`
/ `_session.get` call site in calculations.py, fpl_api.py and
top_n_analysis.py constructs one of these URLs; the code contains no other
HTTP call site. -/
inductive ApiCall where
  | bootstrapStatic
  | entrySummary (entry : Nat)
  | entryHistory (entry : Nat)
  | entryTransfers (entry : Nat)
  | entryPicks (entry : Nat) (gw : Nat)
  | elementSummary (player_id : Nat)
  | leaguePage (league_id : Nat) (page : Nat) (use_new_entries_pagination : Bool)
deriving DecidableEq, Repr

/-- Base URL shared by every request in the code. -/
def apiBase : String := "https://fantasy.premierleague.com/api"

/-- The request each call site issues.  All call sites use `session.get`
(resp. `_session.get`), hence method `get` throughout. -/
def apiRequest : ApiCall → HttpRequest
  | .bootstrapStatic =>
      { method := .get, url := apiBase ++ "/bootstrap-static/" }
  | .entrySummary e =>
      { method := .get, url := apiBase ++ "/entry/" ++ toString e ++ "/" }
  | .entryHistory e =>
      { method := .get, url := apiBase ++ "/entry/" ++ toString e ++ "/history/" }
  | .entryTransfers e =>
      { method := .get, url := apiBase ++ "/entry/" ++ toString e ++ "/transfers/" }
  | .entryPicks e gw =>
      { method := .get,
        url := apiBase ++ "/entry/" ++ toString e ++ "/event/" ++ toString gw ++ "/picks/" }
  | .elementSummary p =>
      { method := .get, url := apiBase ++ "/element-summary/" ++ toString p ++ "/" }
  | .leaguePage l _ _ =>
      { method := .get, url := apiBase ++ "/leagues-classic/" ++ toString l ++ "/standings/" }

/-- The single request issued by `fetch_league_page` (fpl_api.py lines
84-107); the pagination flag only selects the query parameter. -/
def fetch_league_page_requests (league_id page : Nat)
    (use_new_entries_pagination : Bool) : List ApiCall :=
  [.leaguePage league_id page use_new_entries_pagination]

/-- The single request issued by `get_manager_picks` (calculations.py lines
41-50). -/
def get_manager_picks_requests (manager_id gw : Nat) : List ApiCall :=
  [.entryPicks manager_id gw]

/-- The requests issued by `fetch_data_for_manager` (top_n_analysis.py lines
32-61): the picks request, then — unless the picks request raised, which
short-circuits the function — the transfers request. -/
def fetch_data_for_manager_requests (manager_id current_gw : Nat)
    (picksRequestRaised : Bool) : List ApiCall :=
  if picksRequestRaised then [.entryPicks manager_id current_gw]
  else [.entryPicks manager_id current_gw, .entryTransfers manager_id]

/-- One gameweek record of the `/entry/{id}/history/` body, as read by
`process_page_data` via `get_manager_history` in fpl_api.py. -/
structure GwHistEntry where
  event : Nat
  overall_rank : Option Int
deriving DecidableEq, Repr

/-- The enrichment record produced by `get_manager_history` (fpl_api.py
lines 257-350): current and previous gameweek history entries plus the
chip/captain detail pulled from the picks endpoint. -/
structure HistoryInfo where
  current : Option GwHistEntry
  previous : Option GwHistEntry
  chip_used : Option String
  transfer_cost : Int
  captain_name : Option String
  vice_captain_name : Option String
  points_on_bench : Int
deriving DecidableEq, Repr

/-- What `manager_data[entry_id]` holds in `process_page_data` when truthy:
either a history record (when `current_gw` was given) or a bare overall rank
(from `get_overall_rank`).  A failed or empty fetch is `none` at the use
site. -/
inductive ManagerInfo where
  | history (info : HistoryInfo)
  | rankOnly (overall_rank : Int)
deriving DecidableEq, Repr

/-- One entry of `standings.results`, with the `.get` defaults of
`process_page_data` already applied. -/
structure StandingsEntry where
  entry : Nat
  player_name : String
  entry_name : String
  rank : Int
  last_rank : Int
  total : Int
  event_total : Int
deriving DecidableEq, Repr

/-- The flat per-manager row `process_page_data` appends to
`players_data_list` (fpl_api.py lines 226-242 plus the conditionally added
overall-rank-change keys, modelled as optional fields). -/
structure PlayerRow where
  manager_name : String
  rank : Int
  last_rank : Int
  rank_change : Option Int
  pct_rank_change : Option ℚ
  total : Int
  team_name : String
  manager_id : Nat
  gw_points : Int
  overall_rank : Option Int
  chip_used : Option String
  transfer_penalty : Int
  captain_name : Option String
  vice_captain_name : Option String
  points_on_bench : Int
  prev_overall_rank : Option Int
  overall_rank_change : Option Int
  overall_rank_change_pct : Option ℚ
deriving DecidableEq, Repr

/-- The per-row body of the result loop of `process_page_data` (fpl_api.py
lines 168-252): initialize every enrichment field to its default
(`None`/0), overwrite from the fetched manager data when present, and keep
the standings-entry fields unconditionally. -/
def buildPlayerRow (player : StandingsEntry)
    (manager_info : Option ManagerInfo) : PlayerRow :=
  let last_rank := player.last_rank
  let current_rank := player.rank
  let rank_change : Option Int :=
    if last_rank = 0 then none else some (last_rank - current_rank)
  let pct_rank_change : Option ℚ :=
    if last_rank > 0 then some (((last_rank - current_rank : ℚ) / last_rank) * 100)
    else none
  let enrich : Option Int × Option Int × Option Int × Option ℚ ×
      Option String × Int × Option String × Option String × Int :=
    match manager_info with
    | none => (none, none, none, none, none, 0, none, none, 0)
    | some (.rankOnly r) => (some r, none, none, none, none, 0, none, none, 0)
    | some (.history info) =>
      let overall_rank := info.current.bind (fun c => c.overall_rank)
      let prev_overall_rank := info.previous.bind (fun p => p.overall_rank)
      let overall_rank_change : Option Int :=
        match overall_rank, prev_overall_rank with
        | some o, some p => some (p - o)
        | _, _ => none
      let overall_rank_change_pct : Option ℚ :=
        match overall_rank, prev_overall_rank with
        | some o, some p => if p > 0 then some (((p - o : ℚ) / p) * 100) else none
        | _, _ => none
      (overall_rank, prev_overall_rank, overall_rank_change, overall_rank_change_pct,
       info.chip_used, info.transfer_cost, info.captain_name,
       info.vice_captain_name, info.points_on_bench)
  { manager_name := player.player_name
    rank := current_rank
    last_rank := last_rank
    rank_change := rank_change
    pct_rank_change := pct_rank_change
    total := player.total
    team_name := player.entry_name
    manager_id := player.entry
    gw_points := player.event_total
    overall_rank := enrich.1
    chip_used := enrich.2.2.2.2.1
    transfer_penalty := enrich.2.2.2.2.2.1
    captain_name := enrich.2.2.2.2.2.2.1
    vice_captain_name := enrich.2.2.2.2.2.2.2.1
    points_on_bench := enrich.2.2.2.2.2.2.2.2
    prev_overall_rank := enrich.2.1
    overall_rank_change := enrich.2.2.1
    overall_rank_change_pct := enrich.2.2.2.1 }

/-- A row of the standings DataFrame passed to `analyze_top_n_managers`:
the `entry` id and the numeric `rank` column. -/
structure StandRow where
  entry : Nat
  rank : Int
deriving DecidableEq, Repr

/-- Ascending comparison on the `rank` column. -/
def rankLe (a b : StandRow) : Prop := a.rank ≤ b.rank

instance : DecidableRel rankLe :=
  fun a b => inferInstanceAs (Decidable (a.rank ≤ b.rank))

instance : IsTotal StandRow rankLe :=
  ⟨fun a b => le_total a.rank b.rank⟩

instance : IsTrans StandRow rankLe :=
  ⟨fun _ _ _ h1 h2 => le_trans h1 h2⟩

/-- `df.nsmallest(n, "rank")` with `keep` at its default `first`: the first
`n` rows of the DataFrame stably sorted ascending by the `rank` column. -/
def nsmallestByRank (n : Nat) (rows : List StandRow) : List StandRow :=
  (List.insertionSort rankLe rows).take n

/-- What `analyze_top_n_managers` (top_n_analysis.py lines 66-120) does with
the DataFrame before processing: which rows it selects, and how many
per-manager `fetch_data_for_manager` tasks it submits to the pool. -/
structure TopNOutcome where
  analyzed : List StandRow
  fetch_submissions : Nat
deriving DecidableEq, Repr

/-- One row of the `load_player_data` table (`id`, `web_name` of
bootstrap-static `elements`); `load_player_data` returns the empty table on
a failed or non-200 bootstrap fetch. -/
structure PlayerEntry where
  id : Nat
  web_name : String
deriving DecidableEq, Repr

/-- The prologue of `analyze_top_n_managers` up to the fetch fan-out
(top_n_analysis.py lines 82-110): `actual_n = min(top_n, len(df))`; if
`actual_n <= 0` return the empty results at once (no manager fetches);
otherwise select `df.nsmallest(actual_n, "rank")`, then load the player
table — if `df_players.empty` abort with empty results before submitting
any manager fetch (lines 100-103) — and finally submit one
`fetch_data_for_manager` per selected manager. -/
def analyze_top_n_managers (top_n : Int) (df : List StandRow)
    (df_players : List PlayerEntry) : TopNOutcome :=
  let actual_n : Int := min top_n (df.length : Int)
  if actual_n ≤ 0 then { analyzed := [], fetch_submissions := 0 }
  else
    let df_top_players := nsmallestByRank actual_n.toNat df
    if df_players.isEmpty then { analyzed := [], fetch_submissions := 0 }
    else { analyzed := df_top_players, fetch_submissions := df_top_players.length }

/-- A row of the league DataFrame at the end of `get_league_standings`:
`total` points and the nullable `rank` column (`None` becomes NaN / missing,
modelled as `none`). -/
structure LRow where
  manager_id : Nat
  total : Int
  rank : Option Int
deriving DecidableEq, Repr

/-- Descending comparison on the `total` column. -/
def totalGe (a b : LRow) : Prop := b.total ≤ a.total

instance : DecidableRel totalGe :=
  fun a b => inferInstanceAs (Decidable (b.total ≤ a.total))

instance : IsTotal LRow totalGe :=
  ⟨fun a b => (le_total b.total a.total).imp (fun h => h) (fun h => h)⟩

instance : IsTrans LRow totalGe :=
  ⟨fun _ _ _ h1 h2 => le_trans h2 h1⟩

/-- `df["rank"] = range(1, len(df) + 1)`: overwrite the rank of each row in
order with consecutive integers starting at `k`. -/
def assignRanks (k : Nat) : List LRow → List LRow
  | [] => []
  | r :: rs => { r with rank := some (k : Int) } :: assignRanks (k + 1) rs

/-- The rank fix-up at the end of `get_league_standings` (fpl_api.py lines
630-634): if every fetched rank is missing, sort by total points descending
and assign ranks 1..n; otherwise leave the DataFrame untouched. -/
def leagueRankFixup (rows : List LRow) : List LRow :=
  if rows.all (fun r => r.rank.isNone) then
    assignRanks 1 (List.insertionSort totalGe rows)
  else rows

/-- A row of the DataFrame handed to the points-adjustment batch: the fields
`process_manager` reads. -/
structure DfRow where
  manager_id : Nat
  gw_points : Int
  captain_id : Option Nat
deriving DecidableEq, Repr

/-- The per-manager record produced by `process_manager` (the
`get_manager_gw_points` fields plus `transfer_gain` and `captain_points`). -/
structure PMResult where
  net_points : Int
  transfer_adjusted_points : Int
  raw_points : Int
  transfer_cost : Int
  chip_effect : Int
  transfer_gain : Int
  captain_points : Int
deriving DecidableEq, Repr

/-- What `results_dict[original_index]` can hold in
`calculate_adjusted_points_for_players`: the result dict of a successful
task, or — in the `except` branch — the scalar
`df.loc[original_index, 'gw_points']`. -/
inductive CellValue where
  | result (r : PMResult)
  | scalar (v : Int)
deriving DecidableEq, Repr

/-- The per-future body of the `as_completed` loop for the adjusted-points
batch: a task that returns is stored as its result dict; a task that raises
is caught and replaced by the scalar `gw_points` fallback. -/
def adjCell (task : DfRow → Except Unit PMResult) (row : DfRow) : CellValue :=
  match task row with
  | .ok r => .result r
  | .error _ => .scalar row.gw_points

/-- `results_dict` after the `as_completed` loop: an index-keyed map built by
storing, in completion order, each row's cell value under the row's original
DataFrame index. -/
def buildDict (df : List (Nat × α)) (task : α → β) (order : List Nat) :
    List (Nat × β) :=
  order.filterMap (fun i => (df.lookup i).map (fun row => (i, task row)))

/-- `all_results = [results_dict[index] for index in df.index]`: a missing
key (Python `KeyError`) is `none`. -/
def collectResults (dict : List (Nat × β)) : List (Nat × α) → Option (List β)
  | [] => some []
  | p :: rest =>
    match dict.lookup p.1 with
    | none => none
    | some v => (collectResults dict rest).map (fun l => v :: l)

/-- The scatter-gather skeleton shared by the two batch functions: run every
row's task keyed by its index (in an arbitrary completion `order`), then
reassemble following `df.index`. -/
def scatterGather (df : List (Nat × α)) (task : α → β) (order : List Nat) :
    Option (List β) :=
  collectResults (buildDict df task order) df

/-- One column extraction `[result['field'] for result in all_results]`: a
scalar cell has no `'field'` item, so the comprehension raises (`none`). -/
def extractColumn (f : PMResult → Int) : List CellValue → Option (List Int)
  | [] => some []
  | .result r :: rest => (extractColumn f rest).map (fun l => f r :: l)
  | .scalar _ :: _ => none

/-- The six numeric columns `calculate_adjusted_points_for_players` writes
back into the DataFrame. -/
structure AdjustedColumns where
  net_points : List Int
  transfer_adjusted_points : List Int
  transfer_cost : List Int
  chip_effect : List Int
  transfer_gain : List Int
  captain_points : List Int
deriving DecidableEq, Repr

/-- `calculate_adjusted_points_for_players` (calculations.py lines 227-287):
fan the per-row tasks out over the pool, store results (or the caught-
exception fallback) keyed by original index, reassemble in `df.index` order,
then extract the six columns.  `none` models the call raising. -/
def calculate_adjusted_points_for_players (df : List (Nat × DfRow))
    (task : DfRow → Except Unit PMResult) (order : List Nat) :
    Option AdjustedColumns :=
  match scatterGather df (adjCell task) order with
  | none => none
  | some all_results =>
    match extractColumn (fun r => r.net_points) all_results,
        extractColumn (fun r => r.transfer_adjusted_points) all_results,
        extractColumn (fun r => r.transfer_cost) all_results,
        extractColumn (fun r => r.chip_effect) all_results,
        extractColumn (fun r => r.transfer_gain) all_results,
        extractColumn (fun r => r.captain_points) all_results with
    | some np, some tap, some tc, some ce, some tg, some cp =>
      some { net_points := np, transfer_adjusted_points := tap,
             transfer_cost := tc, chip_effect := ce,
             transfer_gain := tg, captain_points := cp }
    | _, _, _, _, _, _ => none

/-- The per-manager record of `get_multi_gw_manager_data`. -/
structure MultiGwResult where
  gw_points : Int
  net_points : Int
  transfer_adjusted_points : Int
  transfer_cost : Int
  chip_effect : Int
  transfer_gain : Int
  captain_points : Int
  points_on_bench : Int
  chips_used : Option String
deriving DecidableEq, Repr

/-- The all-zero fallback record stored by `calculate_multi_gw_points` when
a task raises. -/
def zeroMultiGw : MultiGwResult :=
  { gw_points := 0, net_points := 0, transfer_adjusted_points := 0,
    transfer_cost := 0, chip_effect := 0, transfer_gain := 0,
    captain_points := 0, points_on_bench := 0, chips_used := none }

/-- The per-future body of the `as_completed` loop for the multi-gameweek
batch: catch a raising task and store the zero record. -/
def mgwCell (task : DfRow → Except Unit MultiGwResult) (row : DfRow) :
    MultiGwResult :=
  match task row with
  | .ok r => r
  | .error _ => zeroMultiGw

/-- `calculate_multi_gw_points` (calculations.py lines 392-462): the same
scatter-gather; every stored cell is a full record, and the written columns
are fieldwise projections of the reassembled record list returned here. -/
def calculate_multi_gw_points (df : List (Nat × DfRow))
    (task : DfRow → Except Unit MultiGwResult) (order : List Nat) :
    Option (List MultiGwResult) :=
  scatterGather df (mgwCell task) order

/-- Folding `acc + f x` over the elements satisfying a guard equals the sum
of `f` over the filtered list. -/
theorem foldl_guard_sum (f : α → Int) (p : α → Prop) [DecidablePred p] :
    ∀ (l : List α) (a : Int),
      l.foldl (fun acc x => if p x then acc + f x else acc) a
        = a + ((l.filter (fun x => p x)).map f).sum := by
  intro l
  induction l with
  | nil => intro a; simp
  | cons x xs ih =>
    intro a
    by_cases h : p x
    · simp only [List.foldl_cons, if_pos h, ih, List.filter_cons,
        decide_eq_true_eq, h, if_pos, List.map_cons, List.sum_cons]
      ring
    · simp only [List.foldl_cons, if_neg h, ih, List.filter_cons,
        decide_eq_true_eq, h, if_neg, List.map_cons, List.sum_cons]
      simp [h]

/-- When the guard holds on every element, the guarded fold is the plain sum. -/
theorem foldl_guard_sum_of_all (f : α → Int) (p : α → Prop) [DecidablePred p] :
    ∀ (l : List α), (∀ x ∈ l, p x) → ∀ (a : Int),
      l.foldl (fun acc x => if p x then acc + f x else acc) a
        = a + (l.map f).sum := by
  intro l
  induction l with
  | nil => intro _ a; simp
  | cons x xs ih =>
    intro hall a
    have hx : p x := hall x (List.mem_cons_self x xs)
    simp only [List.foldl_cons, if_pos hx]
    rw [ih (fun y hy => hall y (List.mem_cons_of_mem x hy))]
    simp only [List.map_cons, List.sum_cons]
    ring

/-- Pointwise difference distributes over list sums. -/
theorem sum_map_sub (f g : α → Int) :
    ∀ l : List α, (l.map (fun x => f x - g x)).sum = (l.map f).sum - (l.map g).sum := by
  intro l
  induction l with
  | nil => simp
  | cons x xs ih => simp only [List.map_cons, List.sum_cons, ih]; ring

/-- C1: whenever the picks fetch succeeds, the record returned by
`get_manager_gw_points` satisfies
`net_points = raw_points - transfer_cost - chip_effect` and
`transfer_adjusted_points = raw_points - transfer_cost`, with `raw_points`
and `transfer_cost` taken from the fetched `entry_history`. -/
theorem gw_points_arithmetic (pts : Nat → Int) (status : Nat)
    (data : PicksResponse) (r : GwPointsResult)
    (h : get_manager_gw_points pts (HttpResult.resp status data) = some r) :
    r.net_points = r.raw_points - r.transfer_cost - r.chip_effect ∧
    r.transfer_adjusted_points = r.raw_points - r.transfer_cost ∧
    r.raw_points = data.entry_points ∧
    r.transfer_cost = data.entry_transfers_cost := by
  by_cases hs : status = 200
  · subst hs
    simp only [get_manager_gw_points, ne_eq, not_true_eq_false, if_false,
      reduceIte, Option.some.injEq] at h
    subst h
    refine ⟨?_, ?_, ?_, ?_⟩ <;> rfl
  · simp [get_manager_gw_points, hs] at h

/-- Concrete instantiation of `gw_points_arithmetic`. -/
theorem gw_points_arithmetic_witness :
    ∃ r, get_manager_gw_points (fun _ => 3) (HttpResult.resp 200
        { entry_points := 70, entry_transfers_cost := 8,
          active_chip := some "bboost",
          picks := [{ element := 5, position := 12,
                      is_captain := false, is_vice_captain := false }] }) = some r ∧
      (r.net_points = r.raw_points - r.transfer_cost - r.chip_effect ∧
       r.transfer_adjusted_points = r.raw_points - r.transfer_cost ∧
       r.raw_points = 70 ∧ r.transfer_cost = 8) :=
  ⟨_, rfl, gw_points_arithmetic (fun _ => 3) 200 _ _ rfl⟩

/-- C4: on a successful picks fetch, the `chip_effect` field equals the bench
sum under `bboost`, the captain's points under `3xc`, the position-16 pick's
points under `manager`, and 0 for no chip or any other chip. -/
theorem chip_effect_cases (pts : Nat → Int) (data : PicksResponse)
    (r : GwPointsResult)
    (h : get_manager_gw_points pts (HttpResult.resp 200 data) = some r) :
    (data.active_chip = some "bboost" →
      r.chip_effect = ((data.picks.filter (fun p => p.position > 11)).map
        (fun p => pts p.element)).sum) ∧
    (∀ c, data.active_chip = some "3xc" →
      data.picks.find? (fun p => p.is_captain) = some c →
      r.chip_effect = pts c.element) ∧
    (∀ m, data.active_chip = some "manager" →
      data.picks.find? (fun p => p.position == 16) = some m →
      r.chip_effect = pts m.element) ∧
    (data.active_chip = none → r.chip_effect = 0) ∧
    (∀ ch, data.active_chip = some ch →
      ch ≠ "bboost" → ch ≠ "3xc" → ch ≠ "manager" → r.chip_effect = 0) := by
  simp only [get_manager_gw_points, ne_eq, not_true_eq_false, if_false,
    reduceIte, Option.some.injEq] at h
  subst h
  refine ⟨?_, ?_, ?_, ?_, ?_⟩
  · intro hchip
    show chipPointEffect pts data.active_chip data.picks = _
    rw [hchip]
    simp only [chipPointEffect]
    rw [foldl_guard_sum (fun p => pts p.element) (fun p => p.position > 11)
      data.picks 0, zero_add]
  · intro c hchip hfind
    show chipPointEffect pts data.active_chip data.picks = _
    rw [hchip]
    simp [chipPointEffect, hfind]
  · intro m hchip hfind
    show chipPointEffect pts data.active_chip data.picks = _
    rw [hchip]
    simp [chipPointEffect, hfind]
  · intro hchip
    show chipPointEffect pts data.active_chip data.picks = 0
    rw [hchip]
    rfl
  · intro ch hchip h1 h2 h3
    show chipPointEffect pts data.active_chip data.picks = 0
    rw [hchip]
    unfold chipPointEffect
    split <;> simp_all

/-- Concrete instantiation of `chip_effect_cases`: a bench-boost gameweek. -/
theorem chip_effect_cases_witness :
    ∃ r, get_manager_gw_points (fun e => (e : Int)) (HttpResult.resp 200
        { entry_points := 60, entry_transfers_cost := 4,
          active_chip := some "bboost",
          picks := [{ element := 7, position := 3,
                      is_captain := true, is_vice_captain := false },
                    { element := 9, position := 12,
                      is_captain := false, is_vice_captain := false },
                    { element := 11, position := 15,
                      is_captain := false, is_vice_captain := false }] }) = some r ∧
      r.chip_effect = 20 := by
  refine ⟨_, rfl, ?_⟩
  have h := (chip_effect_cases (fun e => (e : Int))
      { entry_points := 60, entry_transfers_cost := 4,
        active_chip := some "bboost",
        picks := [{ element := 7, position := 3,
                    is_captain := true, is_vice_captain := false },
                  { element := 9, position := 12,
                    is_captain := false, is_vice_captain := false },
                  { element := 11, position := 15,
                    is_captain := false, is_vice_captain := false }] } _ rfl).1 rfl
  rw [h]
  decide

/-- C3: a network failure or non-200 status makes each single-endpoint fetch
return its safe default: `get_player_points` 0, `get_overall_rank` and
`get_manager_history` `none`, `get_manager_basic_data` the all-zero record. -/
theorem failed_fetch_safe_defaults (gw : Nat) (α : Type)
    (f1 : HttpResult (List PlayerHistoryRecord)) (f2 : HttpResult (Option Int))
    (f3 : HttpResult α) (f4 : HttpResult BasicData)
    (h1 : f1.isFailure = true) (h2 : f2.isFailure = true)
    (h3 : f3.isFailure = true) (h4 : f4.isFailure = true) :
    get_player_points gw f1 = 0 ∧
    get_overall_rank f2 = none ∧
    get_manager_history α f3 = none ∧
    get_manager_basic_data f4
      = { summary_overall_points := 0, summary_event_points := 0 } := by
  refine ⟨?_, ?_, ?_, ?_⟩
  · cases f1 with
    | netErr => rfl
    | resp status body =>
      simp only [HttpResult.isFailure, bne_iff_ne, ne_eq] at h1
      simp [get_player_points, h1]
  · cases f2 with
    | netErr => rfl
    | resp status body =>
      simp only [HttpResult.isFailure, bne_iff_ne, ne_eq] at h2
      simp [get_overall_rank, h2]
  · cases f3 with
    | netErr => rfl
    | resp status body =>
      simp only [HttpResult.isFailure, bne_iff_ne, ne_eq] at h3
      simp [get_manager_history, h3]
  · cases f4 with
    | netErr => rfl
    | resp status body =>
      simp only [HttpResult.isFailure, bne_iff_ne, ne_eq] at h4
      simp [get_manager_basic_data, h4]

/-- Concrete instantiation of `failed_fetch_safe_defaults`. -/
theorem failed_fetch_safe_defaults_witness :
    get_player_points 1 HttpResult.netErr = 0 ∧
    get_overall_rank (HttpResult.resp 500 none) = none ∧
    get_manager_history Nat HttpResult.netErr = none ∧
    get_manager_basic_data (HttpResult.resp 404
        { summary_overall_points := 9, summary_event_points := 9 })
      = { summary_overall_points := 0, summary_event_points := 0 } :=
  failed_fetch_safe_defaults 1 Nat HttpResult.netErr (HttpResult.resp 500 none)
    HttpResult.netErr (HttpResult.resp 404
      { summary_overall_points := 9, summary_event_points := 9 })
    rfl rfl rfl rfl

/-- C5: `get_transfer_points_difference` returns the sum over the gameweek's
transfers of (points of the player in minus points of the player out), and 0
when there are no transfers at all (including a failed fetch, which yields
the empty list) or none for that gameweek. -/
theorem transfer_difference_spec (pts : Nat → Int)
    (transfers_data : List Transfer) (gw : Nat)
    (hids : ∀ t ∈ transfers_data.filter (fun t => t.event == gw),
      t.element_in ≠ 0 ∧ t.element_out ≠ 0) :
    get_transfer_points_difference pts transfers_data gw
      = ((transfers_data.filter (fun t => t.event == gw)).map
          (fun t => pts t.element_in - pts t.element_out)).sum ∧
    (transfers_data = [] → get_transfer_points_difference pts transfers_data gw = 0) ∧
    (transfers_data.filter (fun t => t.event == gw) = [] →
      get_transfer_points_difference pts transfers_data gw = 0) := by
  refine ⟨?_, ?_, ?_⟩
  · unfold get_transfer_points_difference
    by_cases he : transfers_data.isEmpty
    · rw [if_pos he]
      rw [List.isEmpty_iff] at he
      subst he
      simp
    · rw [if_neg he]
      by_cases hg : (transfers_data.filter (fun t => t.event == gw)).isEmpty
      · rw [if_pos hg]
        rw [List.isEmpty_iff] at hg
        rw [hg]
        simp
      · rw [if_neg hg]
        rw [foldl_guard_sum_of_all (fun t => pts t.element_in)
            (fun t => t.element_in ≠ 0) _ (fun t ht => (hids t ht).1) 0,
          foldl_guard_sum_of_all (fun t => pts t.element_out)
            (fun t => t.element_out ≠ 0) _ (fun t ht => (hids t ht).2) 0,
          sum_map_sub (fun t : Transfer => pts t.element_in)
            (fun t : Transfer => pts t.element_out)]
        simp
  · intro he
    subst he
    rfl
  · intro hg
    unfold get_transfer_points_difference
    by_cases he : transfers_data.isEmpty
    · rw [if_pos he]
    · rw [if_neg he, if_pos (by rw [hg]; rfl)]

/-- Concrete instantiation of `transfer_difference_spec`. -/
theorem transfer_difference_spec_witness :
    get_transfer_points_difference (fun e => (e : Int))
      [{ event := 7, element_in := 10, element_out := 4 },
       { event := 6, element_in := 2, element_out := 3 }] 7 = 6 := by
  have h := (transfer_difference_spec (fun e => (e : Int))
    [{ event := 7, element_in := 10, element_out := 4 },
     { event := 6, element_in := 2, element_out := 3 }] 7 (by decide)).1
  rw [h]
  rfl

/-- C7: when the enrichment fetch for a manager failed or returned nothing,
the assembled row keeps the defaults — `overall_rank`, `chip_used`,
`captain_name`, `vice_captain_name` null and `transfer_penalty`,
`points_on_bench` zero — while every field taken from the standings entry is
still populated. -/
theorem page_row_defaults_on_failed_enrichment (player : StandingsEntry) :
    (buildPlayerRow player none).overall_rank = none ∧
    (buildPlayerRow player none).chip_used = none ∧
    (buildPlayerRow player none).captain_name = none ∧
    (buildPlayerRow player none).vice_captain_name = none ∧
    (buildPlayerRow player none).transfer_penalty = 0 ∧
    (buildPlayerRow player none).points_on_bench = 0 ∧
    (buildPlayerRow player none).manager_name = player.player_name ∧
    (buildPlayerRow player none).rank = player.rank ∧
    (buildPlayerRow player none).last_rank = player.last_rank ∧
    (buildPlayerRow player none).total = player.total ∧
    (buildPlayerRow player none).team_name = player.entry_name ∧
    (buildPlayerRow player none).manager_id = player.entry ∧
    (buildPlayerRow player none).gw_points = player.event_total := by
  refine ⟨rfl, rfl, rfl, rfl, rfl, rfl, rfl, rfl, rfl, rfl, rfl, rfl, rfl⟩

/-- C8: every request any operation sends to the external API uses the GET
method; `ApiCall` enumerates every HTTP call site of the program, and the
per-operation traces (`fetch_league_page_requests`,
`get_manager_picks_requests`, `fetch_data_for_manager_requests`) only emit
such calls. -/
theorem all_api_requests_are_get :
    (∀ c : ApiCall, (apiRequest c).method = Method.get) ∧
    (∀ league_id page use_new_entries_pagination,
      ∀ c ∈ fetch_league_page_requests league_id page use_new_entries_pagination,
        (apiRequest c).method = Method.get) ∧
    (∀ manager_id gw, ∀ c ∈ get_manager_picks_requests manager_id gw,
      (apiRequest c).method = Method.get) ∧
    (∀ manager_id current_gw picksRequestRaised,
      ∀ c ∈ fetch_data_for_manager_requests manager_id current_gw picksRequestRaised,
        (apiRequest c).method = Method.get) := by
  have hall : ∀ c : ApiCall, (apiRequest c).method = Method.get := by
    intro c
    cases c <;> rfl
  exact ⟨hall, fun _ _ _ c _ => hall c, fun _ _ c _ => hall c,
    fun _ _ _ c _ => hall c⟩

/-- Concrete instantiation of `all_api_requests_are_get`. -/
theorem all_api_requests_are_get_witness :
    (apiRequest (ApiCall.leaguePage 314 1 false)).method = Method.get ∧
    (apiRequest (ApiCall.entryPicks 42 7)).method = Method.get ∧
    (apiRequest (ApiCall.entryTransfers 42)).method = Method.get :=
  ⟨all_api_requests_are_get.2.1 314 1 false _
      (by simp [fetch_league_page_requests]),
   all_api_requests_are_get.2.2.1 42 7 _
      (by simp [get_manager_picks_requests]),
   all_api_requests_are_get.2.2.2 42 7 false _
      (by simp [fetch_data_for_manager_requests])⟩

/-- `assignRanks` writes the consecutive ranks `k, k+1, ...` down the list. -/
theorem assignRanks_map_rank :
    ∀ (k : Nat) (l : List LRow), (assignRanks k l).map (fun r => r.rank)
      = (List.range' k l.length).map (fun n => some (n : Int)) := by
  intro k l
  induction l generalizing k with
  | nil => rfl
  | cons r rs ih => simp [assignRanks, List.range'_succ, ih]

theorem assignRanks_map_total :
    ∀ (k : Nat) (l : List LRow),
      (assignRanks k l).map (fun r => r.total) = l.map (fun r => r.total) := by
  intro k l
  induction l generalizing k with
  | nil => rfl
  | cons r rs ih => simp [assignRanks, ih]

theorem assignRanks_map_pair :
    ∀ (k : Nat) (l : List LRow),
      (assignRanks k l).map (fun r => (r.manager_id, r.total))
        = l.map (fun r => (r.manager_id, r.total)) := by
  intro k l
  induction l generalizing k with
  | nil => rfl
  | cons r rs ih => simp [assignRanks, ih]

/-- C10: when every fetched rank is null, `get_league_standings` assigns
ranks itself — the result is sorted by total points descending, its rank
column is exactly 1..n in that order, and it holds the same managers with
the same totals; when at least one rank is non-null, nothing is rewritten. -/
theorem league_rank_assignment (rows : List LRow) :
    (rows.all (fun r => r.rank.isNone) = true →
      (leagueRankFixup rows).map (fun r => r.rank)
          = (List.range' 1 rows.length).map (fun n => some (n : Int)) ∧
      List.Sorted (fun a b : Int => b ≤ a)
          ((leagueRankFixup rows).map (fun r => r.total)) ∧
      ((leagueRankFixup rows).map (fun r => (r.manager_id, r.total))).Perm
          (rows.map (fun r => (r.manager_id, r.total)))) ∧
    (rows.any (fun r => r.rank.isSome) = true → leagueRankFixup rows = rows) := by
  constructor
  · intro hall
    have hfix : leagueRankFixup rows
        = assignRanks 1 (List.insertionSort totalGe rows) := by
      unfold leagueRankFixup
      rw [if_pos hall]
    have hlen : (List.insertionSort totalGe rows).length = rows.length :=
      (List.perm_insertionSort totalGe rows).length_eq
    refine ⟨?_, ?_, ?_⟩
    · rw [hfix, assignRanks_map_rank, hlen]
    · rw [hfix, assignRanks_map_total]
      exact List.pairwise_map.mpr (List.sorted_insertionSort totalGe rows)
    · rw [hfix, assignRanks_map_pair]
      exact (List.perm_insertionSort totalGe rows).map _
  · intro hany
    have hne : ¬ rows.all (fun r => r.rank.isNone) = true := by
      intro hall
      obtain ⟨x, hx, hsome⟩ := List.any_eq_true.mp hany
      have hnone := List.all_eq_true.mp hall x hx
      cases hxr : x.rank with
      | none => rw [hxr] at hsome; cases hsome
      | some v => rw [hxr] at hnone; cases hnone
    unfold leagueRankFixup
    rw [if_neg hne]

/-- Concrete instantiation of `league_rank_assignment`: an all-null league
gets ranks 1..n by descending total; a league with one real rank is left
untouched. -/
theorem league_rank_assignment_witness :
    (leagueRankFixup [{ manager_id := 1, total := 10, rank := none },
                      { manager_id := 2, total := 30, rank := none }]).map
        (fun r => r.rank) = [some 1, some 2] ∧
    leagueRankFixup [{ manager_id := 3, total := 10, rank := some 4 },
                     { manager_id := 4, total := 30, rank := none }]
      = [{ manager_id := 3, total := 10, rank := some 4 },
         { manager_id := 4, total := 30, rank := none }] := by
  constructor
  · have h := (league_rank_assignment
      [{ manager_id := 1, total := 10, rank := none },
       { manager_id := 2, total := 30, rank := none }]).1 rfl
    rw [h.1]
    rfl
  · exact (league_rank_assignment
      [{ manager_id := 3, total := 10, rank := some 4 },
       { manager_id := 4, total := 30, rank := none }]).2 rfl

/-- C6 (amended): when the bootstrap player-data load returns a non-empty
table, `analyze_top_n_managers` selects exactly `min(top_n, len(df))`
managers, and they are the rows with the numerically smallest rank values
(every selected rank is at most every unselected rank); when the load comes
back empty the function aborts with empty results and no per-manager
fetches; and for `top_n <= 0` it returns the empty outcome without
submitting a single per-manager fetch. -/
theorem top_n_selection (top_n : Int) (df : List StandRow)
    (df_players : List PlayerEntry) :
    (top_n ≤ 0 →
      analyze_top_n_managers top_n df df_players
        = { analyzed := [], fetch_submissions := 0 }) ∧
    (df_players.isEmpty = true →
      analyze_top_n_managers top_n df df_players
        = { analyzed := [], fetch_submissions := 0 }) ∧
    (0 < top_n → df_players.isEmpty = false →
      (analyze_top_n_managers top_n df df_players).analyzed.length
          = min top_n.toNat df.length ∧
      ((analyze_top_n_managers top_n df df_players).analyzed
          ++ (List.insertionSort rankLe df).drop
              (min top_n (df.length : Int)).toNat).Perm df ∧
      ∀ a ∈ (analyze_top_n_managers top_n df df_players).analyzed,
        ∀ b ∈ (List.insertionSort rankLe df).drop
            (min top_n (df.length : Int)).toNat,
          a.rank ≤ b.rank) := by
  refine ⟨?_, ?_, ?_⟩
  · intro h
    unfold analyze_top_n_managers
    rw [if_pos (le_trans (min_le_left _ _) h)]
  · intro hemp
    unfold analyze_top_n_managers
    by_cases hmin : min top_n (df.length : Int) ≤ 0
    · rw [if_pos hmin]
    · rw [if_neg hmin, if_pos hemp]
  · intro hpos hemp
    by_cases hdf : df.length = 0
    · have hnil : df = [] := List.length_eq_zero.mp hdf
      subst hnil
      have h0 : analyze_top_n_managers top_n [] df_players
          = { analyzed := [], fetch_submissions := 0 } := by
        unfold analyze_top_n_managers
        rw [if_pos (by simp)]
      refine ⟨by rw [h0]; simp, by rw [h0]; simp [List.insertionSort], ?_⟩
      rw [h0]
      intro a ha
      cases ha
    · have hlen : 0 < df.length := Nat.pos_of_ne_zero hdf
      have hmin : ¬ min top_n (df.length : Int) ≤ 0 := by
        rw [not_le]
        exact lt_min hpos (by exact_mod_cast hlen)
      have heq : analyze_top_n_managers top_n df df_players
          = { analyzed := nsmallestByRank (min top_n (df.length : Int)).toNat df,
              fetch_submissions :=
                (nsmallestByRank (min top_n (df.length : Int)).toNat df).length } := by
        unfold analyze_top_n_managers
        rw [if_neg hmin, if_neg (by rw [hemp]; exact Bool.false_ne_true)]
      have hslen : (List.insertionSort rankLe df).length = df.length :=
        (List.perm_insertionSort rankLe df).length_eq
      refine ⟨?_, ?_, ?_⟩
      · rw [heq]
        show ((List.insertionSort rankLe df).take _).length = _
        rw [List.length_take, hslen]
        omega
      · rw [heq]
        show ((List.insertionSort rankLe df).take _
            ++ (List.insertionSort rankLe df).drop _).Perm df
        rw [List.take_append_drop]
        exact List.perm_insertionSort rankLe df
      · rw [heq]
        intro a ha b hb
        have hs : List.Pairwise rankLe (List.insertionSort rankLe df) :=
          List.sorted_insertionSort rankLe df
        rw [← List.take_append_drop (min top_n (df.length : Int)).toNat
          (List.insertionSort rankLe df)] at hs
        exact (List.pairwise_append.mp hs).2.2 a ha b hb

/-- C6 counterexample: with a positive `top_n` and a two-row DataFrame but
an empty player table (the bootstrap player-data fetch failed,
top_n_analysis.py lines 100-103), the function analyzes zero managers, not
`min(top_n, len(df))`. -/
theorem top_n_selection_counterexample :
    ¬ ((analyze_top_n_managers 2
          [{ entry := 1, rank := 5 }, { entry := 2, rank := 3 }]
          ([] : List PlayerEntry)).analyzed.length
        = min (2 : Int).toNat
            ([{ entry := 1, rank := 5 },
              { entry := 2, rank := 3 }] : List StandRow).length) := by
  decide

/-- Concrete instantiation of `top_n_selection`: a negative `top_n`, an
empty player table, and the successful path. -/
theorem top_n_selection_witness :
    analyze_top_n_managers (-1) [{ entry := 1, rank := 5 }, { entry := 2, rank := 3 }]
        [{ id := 1, web_name := "A" }]
      = { analyzed := [], fetch_submissions := 0 } ∧
    analyze_top_n_managers 5 [{ entry := 1, rank := 5 }] ([] : List PlayerEntry)
      = { analyzed := [], fetch_submissions := 0 } ∧
    (analyze_top_n_managers 2 [{ entry := 1, rank := 5 }, { entry := 2, rank := 3 },
        { entry := 3, rank := 9 }] [{ id := 1, web_name := "A" }]).analyzed.length = 2 := by
  refine ⟨?_, ?_, ?_⟩
  · exact (top_n_selection (-1)
      [{ entry := 1, rank := 5 }, { entry := 2, rank := 3 }]
      [{ id := 1, web_name := "A" }]).1 (by decide)
  · exact (top_n_selection 5 [{ entry := 1, rank := 5 }]
      ([] : List PlayerEntry)).2.1 rfl
  · rw [((top_n_selection 2 [{ entry := 1, rank := 5 }, { entry := 2, rank := 3 },
        { entry := 3, rank := 9 }] [{ id := 1, web_name := "A" }]).2.2
        (by decide) rfl).1]
    decide

/-- With distinct keys, association lookup finds exactly the member pair. -/
theorem lookup_eq_of_mem_nodup :
    ∀ (df : List (Nat × α)) (i : Nat) (r : α),
      (df.map Prod.fst).Nodup → (i, r) ∈ df → df.lookup i = some r := by
  intro df
  induction df with
  | nil => intro i r _ h; cases h
  | cons p rest ih =>
    intro i r hnodup hmem
    obtain ⟨j, s⟩ := p
    rw [List.map_cons, List.nodup_cons] at hnodup
    rcases List.mem_cons.mp hmem with heq | htail
    · cases heq
      simp [List.lookup]
    · have hij : ¬ i = j := by
        intro h
        apply hnodup.1
        rw [← h]
        exact List.mem_map.mpr ⟨(i, r), htail, rfl⟩
      have hbeq : (i == j) = false := beq_eq_false_iff_ne.mpr hij
      simp only [List.lookup, hbeq]
      exact ih i r hnodup.2 htail

/-- Any completion order that contains a row's index stores that row's own
task result under that index in `results_dict`. -/
theorem buildDict_lookup :
    ∀ (order : List Nat) (df : List (Nat × α)) (task : α → β) (i : Nat) (r : α),
      i ∈ order → df.lookup i = some r →
        (buildDict df task order).lookup i = some (task r) := by
  intro order
  induction order with
  | nil => intro df task i r h _; cases h
  | cons j rest ih =>
    intro df task i r hmem hdf
    by_cases hij : i = j
    · subst hij
      unfold buildDict
      rw [List.filterMap_cons, hdf]
      simp [List.lookup]
    · have hrest : i ∈ rest := by
        rcases List.mem_cons.mp hmem with h | h
        · exact absurd h hij
        · exact h
      have hbeq : (i == j) = false := beq_eq_false_iff_ne.mpr hij
      unfold buildDict
      rw [List.filterMap_cons]
      cases hdj : df.lookup j with
      | none =>
        simp only [Option.map_none']
        exact ih df task i r hrest hdf
      | some s =>
        simp only [Option.map_some', List.lookup, hbeq]
        exact ih df task i r hrest hdf

/-- When every row's index resolves in the dictionary, the reassembly pass
returns exactly the per-row values in DataFrame order. -/
theorem collectResults_eq :
    ∀ (df : List (Nat × α)) (dict : List (Nat × β)) (g : Nat × α → β),
      (∀ p ∈ df, dict.lookup p.1 = some (g p)) →
      collectResults dict df = some (df.map g) := by
  intro df
  induction df with
  | nil => intro dict g _; rfl
  | cons p rest ih =>
    intro dict g h
    unfold collectResults
    rw [h p (List.mem_cons_self p rest),
      ih dict g (fun q hq => h q (List.mem_cons_of_mem p hq))]
    rfl

/-- The scatter-gather skeleton is order-insensitive: under distinct indices
and a completion order covering them, it returns each row's own task value
in original row order. -/
theorem scatterGather_eq (df : List (Nat × α)) (task : α → β) (order : List Nat)
    (hnodup : (df.map Prod.fst).Nodup)
    (hcover : ∀ i ∈ df.map Prod.fst, i ∈ order) :
    scatterGather df task order = some (df.map (fun p => task p.2)) := by
  unfold scatterGather
  apply collectResults_eq
  intro p hp
  obtain ⟨i, row⟩ := p
  exact buildDict_lookup order df task i row
    (hcover i (List.mem_map.mpr ⟨(i, row), hp, rfl⟩))
    (lookup_eq_of_mem_nodup df i row hnodup hp)

/-- C9: both batch functions key results by original row index and
reassemble following `df.index`, so each manager's row carries that
manager's own computed values and the output does not depend on the order
in which the concurrent tasks complete. -/
theorem batch_results_keyed_by_index (df : List (Nat × DfRow))
    (task : DfRow → Except Unit PMResult)
    (mtask : DfRow → Except Unit MultiGwResult)
    (order1 order2 : List Nat)
    (hnodup : (df.map Prod.fst).Nodup)
    (h1 : order1.Perm (df.map Prod.fst))
    (h2 : order2.Perm (df.map Prod.fst)) :
    scatterGather df (adjCell task) order1
        = some (df.map (fun p => adjCell task p.2)) ∧
    calculate_adjusted_points_for_players df task order1
        = calculate_adjusted_points_for_players df task order2 ∧
    calculate_multi_gw_points df mtask order1
        = some (df.map (fun p => mgwCell mtask p.2)) ∧
    calculate_multi_gw_points df mtask order1
        = calculate_multi_gw_points df mtask order2 := by
  have cov1 : ∀ i ∈ df.map Prod.fst, i ∈ order1 := fun i h => h1.mem_iff.mpr h
  have cov2 : ∀ i ∈ df.map Prod.fst, i ∈ order2 := fun i h => h2.mem_iff.mpr h
  have e1 := scatterGather_eq df (adjCell task) order1 hnodup cov1
  have e2 := scatterGather_eq df (adjCell task) order2 hnodup cov2
  have m1 := scatterGather_eq df (mgwCell mtask) order1 hnodup cov1
  have m2 := scatterGather_eq df (mgwCell mtask) order2 hnodup cov2
  refine ⟨e1, ?_, m1, ?_⟩
  · unfold calculate_adjusted_points_for_players
    rw [e1, e2]
  · unfold calculate_multi_gw_points
    rw [m1, m2]

/-- Concrete instantiation of `batch_results_keyed_by_index` on a two-row
DataFrame with the completion orders reversed. -/
theorem batch_results_keyed_by_index_witness :
    scatterGather
        [(0, { manager_id := 10, gw_points := 50, captain_id := none }),
         (1, { manager_id := 11, gw_points := 60, captain_id := none })]
        (adjCell (fun row => Except.ok
          { net_points := row.gw_points, transfer_adjusted_points := 0,
            raw_points := 0, transfer_cost := 0, chip_effect := 0,
            transfer_gain := 0, captain_points := 0 })) [1, 0]
      = some
        [CellValue.result
          { net_points := 50, transfer_adjusted_points := 0, raw_points := 0,
            transfer_cost := 0, chip_effect := 0, transfer_gain := 0,
            captain_points := 0 },
         CellValue.result
          { net_points := 60, transfer_adjusted_points := 0, raw_points := 0,
            transfer_cost := 0, chip_effect := 0, transfer_gain := 0,
            captain_points := 0 }] ∧
    calculate_multi_gw_points
        [(0, { manager_id := 10, gw_points := 50, captain_id := none }),
         (1, { manager_id := 11, gw_points := 60, captain_id := none })]
        (fun _ => Except.ok zeroMultiGw) [1, 0]
      = calculate_multi_gw_points
        [(0, { manager_id := 10, gw_points := 50, captain_id := none }),
         (1, { manager_id := 11, gw_points := 60, captain_id := none })]
        (fun _ => Except.ok zeroMultiGw) [0, 1] := by
  have h := batch_results_keyed_by_index
    [(0, { manager_id := 10, gw_points := 50, captain_id := none }),
     (1, { manager_id := 11, gw_points := 60, captain_id := none })]
    (fun row => Except.ok
      { net_points := row.gw_points, transfer_adjusted_points := 0,
        raw_points := 0, transfer_cost := 0, chip_effect := 0,
        transfer_gain := 0, captain_points := 0 })
    (fun _ => Except.ok zeroMultiGw) [1, 0] [0, 1]
    (by decide) (by decide) (by decide)
  exact ⟨h.1, h.2.2.2⟩

/-- C2 (the code slips on its own intent): in
`calculate_adjusted_points_for_players` a raising task IS caught and
replaced by the scalar `gw_points` fallback in `results_dict`, but the
subsequent column extraction `result['net_points']` fails on that scalar, so
the whole call aborts instead of returning a DataFrame covering every
manager.  The sibling `calculate_multi_gw_points` stores a full zero record
and completes, which is the behaviour the claim describes. -/
theorem adjusted_points_batch_aborts_on_single_failure :
    scatterGather [(0, { manager_id := 101, gw_points := 55, captain_id := none })]
        (adjCell (fun _ => Except.error ())) [0]
      = some [CellValue.scalar 55] ∧
    calculate_adjusted_points_for_players
        [(0, { manager_id := 101, gw_points := 55, captain_id := none })]
        (fun _ => Except.error ()) [0] = none ∧
    calculate_multi_gw_points
        [(0, { manager_id := 101, gw_points := 55, captain_id := none })]
        (fun _ => Except.error ()) [0] = some [zeroMultiGw] := by
  refine ⟨rfl, rfl, rfl⟩

end FPL
